import Mathlib

/-!
Verification of the ImmuView read-only state module (src/src/ImmuView.ts).

The embedding models the JavaScript value graph as an addressed heap
(containers are heap nodes referred to by address, so object identity
and in-place mutation are explicit), the proxy layer as a registry of
proxy objects each carrying its handler kind and target, and the
WeakMap identity caches as a table of caches indexed by cache id (one
per construction pass, shared by the handler closures of that pass).
All definitions are executable; update of heap, registry and cache
tables is functional (an entry is replaced by consing a new binding in
front; `List.lookup` returns the first, newest, binding).
-/

namespace ImmuView

/-- JavaScript primitive values (numbers modelled as integers; no NaN). -/
inductive Prim where
  | num (n : Int)
  | str (s : String)
  | boolean (b : Bool)
  | null
  | undefined
deriving Repr, DecidableEq

/-- Heap addresses identify containers (objects, arrays, dates, functions). -/
abbrev Addr := Nat

/-- A JavaScript value: a primitive or a reference to a heap node. -/
inductive HVal where
  | prim (p : Prim)
  | ref (a : Addr)
deriving Repr, DecidableEq

/-- A heap node: a plain object (ordered own fields), an array, a date
(its epoch time), or a function (opaque body, identified by id). -/
inductive HNode where
  | obj (fields : List (String × HVal))
  | arr (elems : List HVal)
  | date (time : Int)
  | func (fid : Nat)
deriving Repr, DecidableEq

/-- The mutable JavaScript heap: first binding for an address wins. -/
abbrev Heap := List (Addr × HNode)

/-- A heap address unused by any binding of the heap. -/
def freshAddr (h : Heap) : Addr :=
  (h.map (fun p => p.1)).foldr max 0 + 1

/-- The node a value refers to, if any. -/
def nodeAt (h : Heap) : HVal → Option HNode
  | .prim _ => none
  | .ref a => List.lookup a h

/-- source: isObject (lines 46-47): typeof value is the string object
and value is not null. References to objects, arrays and dates qualify;
functions have typeof function and do not; primitives never do. -/
def isObject (h : Heap) (v : HVal) : Bool :=
  match nodeAt h v with
  | some (.func _) => false
  | some _ => true
  | none => false

/-- JavaScript truthiness, used by the check in deepMerge line 52. -/
def truthy : HVal → Bool
  | .prim (.num n) => n != 0
  | .prim (.str s) => s != ""
  | .prim (.boolean b) => b
  | .prim .null => false
  | .prim .undefined => false
  | .ref _ => true

/-- Whether a value is callable (a reference to a function node). -/
def isCallable (h : Heap) (v : HVal) : Bool :=
  match nodeAt h v with
  | some (.func _) => true
  | _ => false

/-- Whether a value refers to a date node. -/
def isDateRef (h : Heap) (v : HVal) : Bool :=
  match nodeAt h v with
  | some (.date _) => true
  | _ => false

/-- Whether a value refers to an array node. -/
def isArrRef (h : Heap) (v : HVal) : Bool :=
  match nodeAt h v with
  | some (.arr _) => true
  | _ => false

/-- The numeric value of a decimal digit character, if it is one. -/
def digitVal (c : Char) : Option Nat :=
  if 48 ≤ c.toNat ∧ c.toNat ≤ 57 then some (c.toNat - 48) else none

/-- Accumulate the digits of a candidate index key. -/
def parseIndexAux : List Char → Nat → Option Nat
  | [], acc => some acc
  | c :: cs, acc =>
    match digitVal c with
    | some d => parseIndexAux cs (acc * 10 + d)
    | none => none

/-- Interpret a property key as an array index when it is all digits
(the standard library parser is not kernel-reducible, hence this one). -/
def parseIndex (s : String) : Option Nat :=
  match s.data with
  | [] => none
  | c :: cs => parseIndexAux (c :: cs) 0

/-- Property read target[key] on own data properties: object fields by
name, array elements by numeric index (plus length), characters of a
string primitive by index (plus length). Absent properties read as
undefined. Built-in prototype methods are not data properties; the
traps that inspect them go through lookupMember below. -/
def getKey (h : Heap) (v : HVal) (key : String) : HVal :=
  match v with
  | .prim (.str s) =>
    if key = "length" then .prim (.num (s.length : Int))
    else
      match parseIndex key with
      | some i =>
        match s.data[i]? with
        | some c => .prim (.str (String.mk [c]))
        | none => .prim .undefined
      | none => .prim .undefined
  | .prim _ => .prim .undefined
  | .ref a =>
    match List.lookup a h with
    | some (.obj fields) => (fields.lookup key).getD (.prim .undefined)
    | some (.arr elems) =>
      if key = "length" then .prim (.num (elems.length : Int))
      else
        match parseIndex key with
        | some i => elems.getD i (.prim .undefined)
        | none => .prim .undefined
    | some (.date _) => .prim .undefined
    | some (.func _) => .prim .undefined
    | none => .prim .undefined

/-- Replace the binding of a field, or append a new one (JS assignment
on a plain object keeps insertion order). -/
def setField (fields : List (String × HVal)) (key : String) (v : HVal) :
    List (String × HVal) :=
  if fields.any (fun p => p.1 = key) then
    fields.map (fun p => if p.1 = key then (key, v) else p)
  else fields ++ [(key, v)]

/-- Array element assignment: in-range indices are replaced; assigning
past the end pads with undefined, as JS does. -/
def arrSet (elems : List HVal) (i : Nat) (v : HVal) : List HVal :=
  if i < elems.length then elems.set i v
  else elems ++ List.replicate (i - elems.length) (.prim .undefined) ++ [v]

/-- Property assignment target[key] = v, an in-place heap update.
Assignment onto a primitive, a date, a function, or an array at a
non-numeric key is left unmodelled (none); no claim exercises those
paths (strict-mode JS raises TypeError on primitive targets). -/
def setKey (h : Heap) (target : HVal) (key : String) (v : HVal) : Option Heap :=
  match target with
  | .prim _ => none
  | .ref a =>
    match List.lookup a h with
    | some (.obj fields) => some ((a, .obj (setField fields key v)) :: h)
    | some (.arr elems) =>
      match parseIndex key with
      | some i => some ((a, .arr (arrSet elems i v)) :: h)
      | none => none
    | some (.date _) => none
    | some (.func _) => none
    | none => none

/-- The keys a for-in loop enumerates over a value: own enumerable keys
of objects and arrays, character indices of a nonempty string primitive
(JS coerces the primitive to its wrapper, whose index properties are
enumerable), nothing for other primitives, null, undefined or dates. -/
def ownEnumKeys (h : Heap) : HVal → List String
  | .prim (.str s) => (List.range s.length).map (fun i => toString i)
  | .prim _ => []
  | .ref a =>
    match List.lookup a h with
    | some (.obj fields) => fields.map (fun p => p.1)
    | some (.arr elems) => (List.range elems.length).map (fun i => toString i)
    | some (.date _) => []
    | some (.func _) => []
    | none => []

/-- Loop body of deepMerge over the pending keys of source. For each
key: if source[key] is an object (arrays and dates included, by
isObject), first assign a freshly allocated empty object to target[key]
when the current value there is falsy, then recurse into the pair;
otherwise assign source[key] onto target[key] directly. Values are
re-read from the current heap at each step, as the JS loop does. The
fuel bounds the total number of loop steps (the JS original diverges on
cyclic sources); none means exhausted fuel or an unmodelled assignment. -/
def mergeKeys (fuel : Nat) (h : Heap) (target source : HVal)
    (keys : List String) : Option Heap :=
  match fuel with
  | 0 => none
  | fuel' + 1 =>
    match keys with
    | [] => some h
    | key :: rest =>
      let sv := getKey h source key
      if isObject h sv then
        let step : Option Heap :=
          if truthy (getKey h target key) then some h
          else
            let a := freshAddr h
            setKey ((a, .obj []) :: h) target key (.ref a)
        match step with
        | none => none
        | some h1 =>
          match
            mergeKeys fuel' h1 (getKey h1 target key) (getKey h1 source key)
              (ownEnumKeys h1 (getKey h1 source key)) with
          | none => none
          | some h2 => mergeKeys fuel' h2 target source rest
      else
        match setKey h target key sv with
        | none => none
        | some h1 => mergeKeys fuel' h1 target source rest

/-- source: deepMerge (lines 49-58), an in-place recursive merge driven
by for-in enumeration of source. -/
def deepMerge (fuel : Nat) (h : Heap) (target source : HVal) : Option Heap :=
  mergeKeys fuel h target source (ownEnumKeys h source)

/-- The error kinds observable from this module: DirectMutationError and
ValidationError (each carrying its message), plus the TypeError the JS
runtime itself raises (calling a non-function, or a built-in method on
a receiver lacking the required internal slot). -/
inductive JsError where
  | directMutation (msg : String)
  | validation (msg : String)
  | typeErr
deriving Repr, DecidableEq

deriving instance DecidableEq for Except

/-- source: the throwError guard (lines 60-62); the source name collides with a Lean built-in token, hence the js prefix. -/
def jsThrowError : Except JsError Unit :=
  .error (.directMutation "Cannot modify readonly state.")

/-- source: DATE_MUTATING_METHODS (lines 17-34), copied verbatim
(setUTCDay included, although no real date has such a method). -/
def DATE_MUTATING_METHODS : List String :=
  ["setDate", "setFullYear", "setHours", "setMilliseconds", "setMinutes",
   "setMonth", "setSeconds", "setTime", "setUTCDate", "setUTCDay",
   "setUTCFullYear", "setUTCHours", "setUTCMilliseconds", "setUTCMinutes",
   "setUTCMonth", "setUTCSeconds"]

/-- source: ARRAY_MUTATING_METHODS (lines 36-44). -/
def ARRAY_MUTATING_METHODS : List String :=
  ["push", "pop", "shift", "unshift", "splice", "reverse", "sort"]

/-- Names of Date.prototype methods the model recognises when a trap
looks a member up on a date (a representative subset of the built-in
prototype; only getTime and valueOf are given an evaluation rule). -/
def DATE_PROTO_METHODS : List String :=
  ["getTime", "valueOf", "getFullYear", "getMonth", "getDate", "getDay",
   "getHours", "getMinutes", "getSeconds", "getMilliseconds",
   "getUTCFullYear", "getUTCMonth", "getUTCDate", "toISOString"]

/-- Names of non-mutating Array.prototype methods the model recognises
(a representative subset). -/
def ARRAY_PROTO_METHODS : List String :=
  ["concat", "slice", "map", "filter", "forEach", "includes", "indexOf",
   "join", "find", "some", "every", "flat", "reduce"]

/-- What a get trap can hand back: a plain value, a proxy (by id), a
function bound to its original receiver, the mutation guard function,
a built-in prototype method returned raw and unbound, or a built-in
array method wrapped in a fresh array-view proxy (the second disjunct
of the array branch of the deep get trap; no claim calls through such
a view, so it is represented by the method name). -/
inductive GetResult where
  | val (v : HVal)
  | proxy (pid : Nat)
  | boundFn (fid : Nat) (receiver : HVal)
  | guardFn
  | protoMethod (name : String)
  | methodView (name : String)
deriving Repr, DecidableEq

/-- A member as a trap sees it: an own data property (possibly
undefined), or a built-in Array.prototype method inherited by arrays
(the only prototype members any handler of this module inspects). -/
inductive Member where
  | mval (v : HVal)
  | arrProto (name : String)
deriving Repr, DecidableEq

/-- Member lookup obj[prop] as the traps perform it: own data
properties via getKey, plus Array.prototype methods on arrays. -/
def lookupMember (h : Heap) (a : Addr) (prop : String) : Member :=
  match List.lookup a h with
  | some (.arr _) =>
    if ARRAY_MUTATING_METHODS.contains prop || ARRAY_PROTO_METHODS.contains prop then
      .arrProto prop
    else .mval (getKey h (.ref a) prop)
  | _ => .mval (getKey h (.ref a) prop)

/-- source: dateProxyHandler.get (lines 64-71). A listed mutator name
yields the guard; any other member is returned exactly as found on the
date object, so prototype methods come back unbound (this variant has
no bind call) and unknown properties read as undefined. -/
def dateGet (prop : String) : GetResult :=
  if DATE_MUTATING_METHODS.contains prop then .guardFn
  else if DATE_PROTO_METHODS.contains prop then .protoMethod prop
  else .val (.prim .undefined)

/-- The receiver of a date method call: an actual date object, or a
proxy (which has no [[DateValue]] internal slot). -/
inductive DateRecv where
  | dateObj (a : Addr)
  | proxyRecv
deriving Repr, DecidableEq

/-- Invoking a Date.prototype method with a given receiver. These
built-ins begin by reading the [[DateValue]] internal slot of this; a
Proxy does not forward internal slots, so a proxy receiver raises
TypeError whatever the method. Evaluation is modelled for the epoch
getters getTime and valueOf (the epoch time itself); other getters
return none (unmodelled), which no claim depends on. -/
def invokeDateMethod (h : Heap) (name : String) (r : DateRecv) :
    Option (Except JsError Prim) :=
  match r with
  | .proxyRecv => some (.error .typeErr)
  | .dateObj a =>
    match List.lookup a h with
    | some (.date t) =>
      if name = "getTime" || name = "valueOf" then some (.ok (.num t))
      else none
    | _ => some (.error .typeErr)

/-- Calling w.prop() where w is a date view proxy: the get trap runs
first; a guard result raises DirectMutationError when invoked; a method
result was returned unbound, so the invocation receiver is the view
proxy itself; a plain undefined value is not callable (TypeError). -/
def callThroughDateView (h : Heap) (prop : String) : Option (Except JsError Prim) :=
  match dateGet prop with
  | .guardFn => some (.error (.directMutation "Cannot modify readonly state."))
  | .protoMethod name => invokeDateMethod h name .proxyRecv
  | _ => some (.error .typeErr)

/-- Which handler a proxy carries: the deep handler built by
createDeepProxy, or the module-level array or date handler. -/
inductive HandlerKind where
  | deep
  | arrH
  | dateH
deriving Repr, DecidableEq

/-- A proxy object: its handler kind, its [[ProxyTarget]] (the proxyKey
for deep proxies — the container itself, or the holder object for
non-object wrapped values), the value the deep handler closure captured
as target, and the id of the WeakMap that closure shares. The array and
date handlers are module-level and capture no WeakMap; for them the
wmap field is unused and stored as 0. -/
structure ProxyObj where
  kind : HandlerKind
  targetKey : HVal
  wrapped : HVal
  wmap : Nat
deriving Repr, DecidableEq

/-- The proxy-layer environment: the JS heap (backing data plus holder
objects), the registry of live proxies (each new Proxy call allocates a
fresh id), and the table of WeakMap identity caches (each cache maps a
container address to the proxy id cached for it). -/
structure PEnv where
  heap : Heap
  proxies : List (Nat × ProxyObj)
  nextP : Nat
  wmaps : List (Nat × List (Addr × Nat))
  nextW : Nat
deriving Repr, DecidableEq

/-- Allocate a fresh, empty WeakMap (the default value of the proxies
parameter of createDeepProxy, and the cache of every rebuild). -/
def newWeakMap (env : PEnv) : Nat × PEnv :=
  (env.nextW, { env with wmaps := (env.nextW, []) :: env.wmaps, nextW := env.nextW + 1 })

/-- The current contents of a WeakMap. -/
def wmapOf (env : PEnv) (wm : Nat) : List (Addr × Nat) :=
  (List.lookup wm env.wmaps).getD []

/-- Register a new deep proxy whose proxyKey is the container at a,
recording it in WeakMap wm (lines 148-149: new Proxy then proxies.set). -/
def registerProxy (env : PEnv) (wm : Nat) (a : Addr) (wrapped : HVal) : Nat × PEnv :=
  let p := env.nextP
  (p, { env with
        proxies := (p, ⟨.deep, .ref a, wrapped, wm⟩) :: env.proxies,
        nextP := p + 1,
        wmaps := (wm, (a, p) :: wmapOf env wm) :: env.wmaps })

/-- Non-objects get a fresh single-field holder object as proxyKey
(lines 91-96); being fresh, the holder can never already be in the
WeakMap, so a new proxy is always created. -/
def mkHolderProxy (env : PEnv) (wm : Nat) (target : HVal) : Nat × PEnv :=
  let a := freshAddr env.heap
  let env1 := { env with heap := (a, .obj [("value", target)]) :: env.heap }
  registerProxy env1 wm a target

/-- source: createDeepProxy (lines 86-151). wm is the WeakMap shared by
the handler closures of this construction pass (the proxies parameter).
Construction is lazy: nested values are wrapped only when read, by the
get trap. The options parameter of the source never influences
construction and is omitted. -/
def createDeepProxy (env : PEnv) (wm : Nat) (target : HVal) : Nat × PEnv :=
  match target with
  | .ref a =>
    if isObject env.heap (.ref a) then
      match List.lookup a (wmapOf env wm) with
      | some p => (p, env)
      | none => registerProxy env wm a (.ref a)
    else mkHolderProxy env wm (.ref a)
  | .prim q => mkHolderProxy env wm (.prim q)

/-- A direct new Proxy(value, handler) with the array or date handler:
allocated fresh on every access and never entered in any WeakMap. -/
def newProxy (env : PEnv) (k : HandlerKind) (target : HVal) : Nat × PEnv :=
  let p := env.nextP
  (p, { env with proxies := (p, ⟨k, target, target, 0⟩) :: env.proxies, nextP := p + 1 })

/-- source: arrayProxyHandler.get (lines 73-84). A listed mutator name
yields the guard; otherwise the element is read, and an object element
is wrapped by createDeepProxy called with its DEFAULT cache argument —
a brand new WeakMap per access (line 80 passes no third argument); a
non-mutating built-in method is returned raw (isObject is false for
functions); anything else passes through. -/
def arrayGet (env : PEnv) (a : Addr) (prop : String) : GetResult × PEnv :=
  if ARRAY_MUTATING_METHODS.contains prop then (.guardFn, env)
  else
    match lookupMember env.heap a prop with
    | .arrProto name => (.protoMethod name, env)
    | .mval item =>
      if isObject env.heap item then
        let r := newWeakMap env
        let r2 := createDeepProxy r.2 r.1 item
        (.proxy r2.1, r2.2)
      else (.val item, env)

/-- source: the deep handler get trap (lines 101-118). Reads the member
off the live target, then: a date value gets a fresh date view; an
array value — or a function member of an array target — gets a fresh
array view; a plain object is wrapped through createDeepProxy with the
SHARED WeakMap of this pass; a function-valued property is returned
bound to the target object; everything else passes through. -/
def deepGet (env : PEnv) (wm : Nat) (objAddr : Addr) (prop : String) :
    GetResult × PEnv :=
  match lookupMember env.heap objAddr prop with
  | .arrProto name => (.methodView name, env)
  | .mval value =>
    if isDateRef env.heap value then
      let r := newProxy env .dateH value
      (.proxy r.1, r.2)
    else if isArrRef env.heap value then
      let r := newProxy env .arrH value
      (.proxy r.1, r.2)
    else if isObject env.heap value then
      let r := createDeepProxy env wm value
      (.proxy r.1, r.2)
    else
      match nodeAt env.heap value with
      | some (.func fid) => (.boundFn fid (.ref objAddr), env)
      | _ => (.val value, env)

/-- Property read through a proxy: dispatch to the get trap of the
handler the proxy carries. -/
def proxyGet (env : PEnv) (pid : Nat) (prop : String) : Option (GetResult × PEnv) :=
  match List.lookup pid env.proxies with
  | none => none
  | some po =>
    match po.kind, po.targetKey with
    | .deep, .ref a => some (deepGet env po.wmap a prop)
    | .arrH, .ref a => some (arrayGet env a prop)
    | .dateH, _ => some (dateGet prop, env)
    | _, _ => none

/-- The result component of a read through a proxy. -/
def readProp (env : PEnv) (pid : Nat) (prop : String) : Option GetResult :=
  (proxyGet env pid prop).map (fun r => r.1)

/-- The write-capable operations a proxy can trap: property assignment,
property deletion, defining a property, changing the prototype, and
preventing extensions (extending the container is an assignment or a
definition of a new property, covered by the first and third). -/
inductive WriteOp where
  | setProp (key : String) (v : HVal)
  | deleteProp (key : String)
  | defineProp (key : String)
  | setProtoOf
  | preventExt
deriving Repr, DecidableEq

/-- source: lines 119-123 — the set, deleteProperty, defineProperty,
setPrototypeOf and preventExtensions traps of the deep handler are all
wired to the throwError guard, whatever the operation arguments. -/
def writeTrap (op : WriteOp) : Except JsError Unit :=
  match op with
  | .setProp _ _ => jsThrowError
  | .deleteProp _ => jsThrowError
  | .defineProp _ => jsThrowError
  | .setProtoOf => jsThrowError
  | .preventExt => jsThrowError

/-- A write-capable operation attempted on a facade: the trap raises
before anything is written, so the environment comes back unchanged
(the pid parameter records which facade was targeted; the trap ignores
it, as the handler ignores its arguments). -/
def attemptWrite (env : PEnv) (pid : Nat) (op : WriteOp) :
    Except JsError Unit × PEnv :=
  (writeTrap op, env)

/-- The prototype of a container, named by the built-in it came from
(object literals have Object.prototype, arrays Array.prototype, and so
on; custom prototype chains are not modelled). -/
inductive ProtoTag where
  | objectProto
  | arrayProto
  | dateProto
  | funcProto
deriving Repr, DecidableEq

/-- Object.getPrototypeOf on a live heap node. -/
def protoOf : HNode → ProtoTag
  | .obj _ => .objectProto
  | .arr _ => .arrayProto
  | .date _ => .dateProto
  | .func _ => .funcProto

/-- Reflect.ownKeys on the live container: field names of an object in
insertion order; index keys plus the length property for an array. -/
def jsOwnKeys (h : Heap) (a : Addr) : List String :=
  match List.lookup a h with
  | some (.obj fields) => fields.map (fun p => p.1)
  | some (.arr elems) => (List.range elems.length).map (fun i => toString i) ++ ["length"]
  | some (.date _) => []
  | some (.func _) => []
  | none => []

/-- The in operator on the live container (own keys; prototype-chain
membership is not modelled, and both sides of every comparison in this
development use this same notion). -/
def jsHasKey (h : Heap) (a : Addr) (key : String) : Bool :=
  (jsOwnKeys h a).contains key

/-- Reflect.getOwnPropertyDescriptor on the live container, reduced to
the value slot of the descriptor (the only slot any claim compares). -/
def jsOwnPropValue (h : Heap) (a : Addr) (key : String) : Option HVal :=
  match List.lookup a h with
  | some (.obj fields) => fields.lookup key
  | some (.arr elems) =>
    if key = "length" then some (.prim (.num (elems.length : Int)))
    else
      match parseIndex key with
      | some i => elems[i]?
      | none => none
  | _ => none

/-- Object.isExtensible on the live container: ordinary objects are
extensible unless preventExtensions succeeded on them, and nothing in
this module ever makes the backing non-extensible (the facade trap for
preventExtensions always throws), so the live answer is true. -/
def jsIsExtensible (h : Heap) (a : Addr) : Bool :=
  match List.lookup a h with
  | some _ => true
  | none => false

/-- source: the ownKeys trap (lines 125-127) — Reflect.ownKeys(obj) on
the live target. -/
def ownKeysTrap (h : Heap) (a : Addr) : List String :=
  jsOwnKeys h a

/-- source: the has trap (lines 128-130) — key in target. -/
def hasTrap (h : Heap) (a : Addr) (key : String) : Bool :=
  jsHasKey h a key

/-- source: the getOwnPropertyDescriptor trap (lines 131-133) —
Reflect.getOwnPropertyDescriptor(target, key). -/
def gopdTrap (h : Heap) (a : Addr) (key : String) : Option HVal :=
  jsOwnPropValue h a key

/-- source: the isExtensible trap (lines 134-136) — constant false,
regardless of the live target. -/
def isExtensibleTrap (h : Heap) (a : Addr) : Bool :=
  false

/-- source: the getPrototypeOf trap (lines 137-139) — the prototype of
the captured target when it is an object, JS null otherwise (none). -/
def getPrototypeOfTrap (h : Heap) (wrapped : HVal) : Option ProtoTag :=
  if isObject h wrapped then (nodeAt h wrapped).map protoOf else none

/-- source: the apply trap (lines 140-145): its own target parameter is
the [[ProxyTarget]]; a non-function target raises the qualified
message, a function target raises the plain mutation guard message. -/
def applyTrap (h : Heap) (target : HVal) : Except JsError Unit :=
  if isCallable h target = false then
    .error (.directMutation "Target is not callable.")
  else .error (.directMutation "Cannot modify readonly state.")

/-- A JS function call on a facade. A Proxy is callable only when its
[[ProxyTarget]] is callable; calling a non-callable object raises
TypeError before any trap is consulted; only for a callable target does
the apply trap of the deep handler run. -/
def callFacade (env : PEnv) (pid : Nat) : Except JsError Unit :=
  match List.lookup pid env.proxies with
  | none => .error .typeErr
  | some po =>
    if isCallable env.heap po.targetKey then applyTrap env.heap po.targetKey
    else .error .typeErr

/-- The options record of readonly (validator, error handler, custom
validation message). The error handler is a callback; the model keeps
its presence as a Boolean and reports a delivered error through the
handled outcome of internalSet. The validator receives the candidate
value, so it reads the heap. -/
structure Options where
  validator : Option (Heap → HVal → Bool)
  errorHandler : Bool
  validationErrorMessage : Option String

/-- Options with no field configured. -/
def noOpts : Options :=
  ⟨none, false, none⟩

/-- The record readonly returns. The valueProp field is the value
property of the returned record: it captures the facade built at
creation and is never written again (the rebuild inside internalSet
rebinds only the closure-local proxy variable). initialValue and opts
are the values the internalSet closure captured. -/
structure Handle where
  initialValue : HVal
  valueProp : Nat
  opts : Options

/-- What a call to internalSet does: ok carries the id of the facade
rebuilt into the closure-local variable; handled means the error was
delivered to the configured handler and the call returned normally;
raised means the error was thrown to the caller. -/
inductive SetOutcome where
  | ok (rebuilt : Nat)
  | handled (e : JsError)
  | raised (e : JsError)
deriving Repr, DecidableEq

/-- source: readonly (lines 153-157 and 173): build the facade over
initialValue with a fresh WeakMap and return the handle. -/
def readonly (env : PEnv) (initialValue : HVal) (opts : Options) : Handle × PEnv :=
  let r := newWeakMap env
  let r2 := createDeepProxy r.2 r.1 initialValue
  (⟨initialValue, r2.1, opts⟩, r2.2)

/-- source: lines 169-170: deep-merge the candidate into the captured
initialValue in place, then rebuild the facade over the same
initialValue reference with a fresh default WeakMap; the rebuilt proxy
goes into the closure-local variable only. -/
def mergeAndRebuild (fuel : Nat) (env : PEnv) (hd : Handle) (newValue : HVal) :
    Option (SetOutcome × PEnv) :=
  match deepMerge fuel env.heap hd.initialValue newValue with
  | none => none
  | some heap1 =>
    let env1 : PEnv := { env with heap := heap1 }
    let r := newWeakMap env1
    let r2 := createDeepProxy r.2 r.1 hd.initialValue
    some (.ok r2.1, r2.2)

/-- source: internalSet (lines 158-171): when a validator is configured
and rejects the candidate, build a ValidationError with the configured
or default message and either hand it to the configured error handler
(returning normally, nothing merged) or throw it; otherwise deep-merge
and rebuild. none only when the merge runs out of fuel. -/
def internalSet (fuel : Nat) (env : PEnv) (hd : Handle) (newValue : HVal) :
    Option (SetOutcome × PEnv) :=
  match hd.opts.validator with
  | some validator =>
    if validator env.heap newValue = false then
      let e := JsError.validation (hd.opts.validationErrorMessage.getD "Validation failed.")
      if hd.opts.errorHandler then some (.handled e, env)
      else some (.raised e, env)
    else mergeAndRebuild fuel env hd newValue
  | none => mergeAndRebuild fuel env hd newValue

/-- Whether an internalSet outcome is a successful merge. -/
def isOkOutcome : SetOutcome → Bool
  | .ok _ => true
  | _ => false

/-- The rebuilt-facade id of a successful internalSet outcome. -/
def outcomePid : SetOutcome → Option Nat
  | .ok p => some p
  | _ => none

/-- The proxy id a get trap produced, when it produced one. -/
def gotPid : Option (GetResult × PEnv) → Option Nat
  | some (.proxy p, _) => some p
  | _ => none

/-- Whether the configured validator (if any) accepts a candidate. -/
def validatorAccepts (env : PEnv) (hd : Handle) (v : HVal) : Bool :=
  match hd.opts.validator with
  | some f => f env.heap v
  | none => true

/-- Primitives over which for-in enumerates no keys: numbers, booleans,
null, undefined, and the empty string. A nonempty string enumerates its
character indices. -/
def nonEnumPrim : HVal → Bool
  | .prim (.str s) => s == ""
  | .prim _ => true
  | .ref _ => false

/-!
Concrete scenarios. The demo scenario is the one of the spec: backing
value at address 0 holding count 5, candidate update at address 1
holding count 10, one handle created over the backing value.
-/

/-- Heap for the controlled-update scenario. -/
def demoHeap : Heap :=
  [(0, .obj [("count", .prim (.num 5))]), (1, .obj [("count", .prim (.num 10))])]

/-- Initial environment for the controlled-update scenario. -/
def demoEnv : PEnv :=
  ⟨demoHeap, [], 0, [], 0⟩

/-- The handle and environment after readonly, for the demo scenario. -/
def demoRo : Handle × PEnv :=
  readonly demoEnv (.ref 0) noOpts

/-- The demo scenario after internalSet with the candidate at address 1. -/
def demoSet : Option (SetOutcome × PEnv) :=
  internalSet 10 demoRo.2 demoRo.1 (.ref 1)

/-- Claim C2: with initial value count 5 and no validator, calling
internalSet with count 10 succeeds, and reading count through the value
property of the handle afterwards yields 10: the update is fully
visible to the read issued after the setter returned. -/
theorem c2_internalSet_roundtrip :
    (demoSet.map (fun r => isOkOutcome r.1)) = some true ∧
    (demoSet.bind (fun r => readProp r.2 demoRo.1.valueProp "count")) =
      some (.val (.prim (.num 10))) := by
  decide

/-- Claim C5 counterexample: after a successful internalSet, the facade
issued at creation (the value property of the handle, proxy id 0) does
NOT read the old data — count through it is no longer 5 — so previously
issued facades are not stale; and the rebuilt facade (id 1) is stored
only in the closure-local variable, the handle still exposing id 0. -/
theorem c5_stale_facade_counterexample :
    (demoSet.bind (fun r => readProp r.2 demoRo.1.valueProp "count")) ≠
      some (.val (.prim (.num 5))) ∧
    (demoSet.map (fun r => outcomePid r.1)) = some (some 1) ∧
    demoRo.1.valueProp = 0 := by
  decide

/-- Claim C5, amended: after a successful internalSet, previously
issued facades remain CURRENT — the pre-update facade reads the
post-update data (count is 10 through proxy id 0), because the merge
mutates the backing container in place and facades read through to the
live target; a fresh facade is indeed built (id 1), but only into the
closure-local variable: the value property of the handle still holds
the facade from creation, whose registry entry is unchanged. -/
theorem c5_facades_stay_current :
    (demoSet.bind (fun r => readProp r.2 demoRo.1.valueProp "count")) =
      some (.val (.prim (.num 10))) ∧
    (demoSet.map (fun r => outcomePid r.1)) = some (some 1) ∧
    demoRo.1.valueProp = 0 ∧
    (demoSet.map (fun r => List.lookup demoRo.1.valueProp r.2.proxies)) =
      some (List.lookup demoRo.1.valueProp demoRo.2.proxies) := by
  decide

/-- Heap for the deep-merge scenarios of claim C1: target at 0 holds a
pointing at the array 1 2 3, source at 2 holds a pointing at the array
4 5; target at 4 and source at 6 form the nested-object example. -/
def c1Heap : Heap :=
  [(0, .obj [("a", .ref 1)]),
   (1, .arr [.prim (.num 1), .prim (.num 2), .prim (.num 3)]),
   (2, .obj [("a", .ref 3)]),
   (3, .arr [.prim (.num 4), .prim (.num 5)]),
   (4, .obj [("a", .prim (.num 1)), ("nested", .ref 5)]),
   (5, .obj [("b", .prim (.num 2))]),
   (6, .obj [("nested", .ref 7)]),
   (7, .obj [("c", .prim (.num 3))])]

/-- Claim C1: merging a source whose a is the array 4 5 into a target
whose a is the array 1 2 3 does NOT fully replace the sequence: since
isObject is true of an array, the merge recurses index-wise and the
leftover element survives, yielding 4 5 3 — against the claim, the spec
and the repository test that expects 4 5. The nested-object half of the
claim does hold: nested containers are merged recursively in place and
keys only in the target are untouched. -/
theorem c1_deepMerge_merges_arrays_elementwise :
    ((deepMerge 20 c1Heap (.ref 0) (.ref 2)).bind (fun h2 => List.lookup 1 h2)) =
      some (.arr [.prim (.num 4), .prim (.num 5), .prim (.num 3)]) ∧
    ((deepMerge 20 c1Heap (.ref 4) (.ref 6)).map (fun h2 =>
        (getKey h2 (.ref 4) "a", getKey h2 (.ref 4) "nested",
         getKey h2 (.ref 5) "b", getKey h2 (.ref 5) "c"))) =
      some (.prim (.num 1), .ref 5, .prim (.num 2), .prim (.num 3)) := by
  decide

/-- Handle over a backing object for the non-container-candidate
scenario of claim C10. -/
def c10Ro : Handle × PEnv :=
  readonly ⟨[(0, .obj [("count", .prim (.num 5))])], [], 0, [], 0⟩ (.ref 0) noOpts

/-- internalSet with a nonempty string candidate. -/
def c10Set : Option (SetOutcome × PEnv) :=
  internalSet 10 c10Ro.2 c10Ro.1 (.prim (.str "ab"))

/-- Claim C10 counterexample: a string is a non-container candidate,
yet internalSet with the string ab returns normally AND mutates the
backing value — for-in over a string enumerates its character indices,
so keys 0 and 1 appear on the backing object afterwards, holding the
characters. -/
theorem c10_string_candidate_mutates_backing :
    (c10Set.map (fun r => isOkOutcome r.1)) = some true ∧
    getKey c10Ro.2.heap (.ref 0) "0" = .prim .undefined ∧
    (c10Set.map (fun r => getKey r.2.heap (.ref 0) "0")) = some (.prim (.str "a")) ∧
    (c10Set.map (fun r => getKey r.2.heap (.ref 0) "1")) = some (.prim (.str "b")) := by
  decide

/-- Heap for the date scenario of claim C7: an object whose d is a date
with epoch time 1234. -/
def c7Heap : Heap :=
  [(0, .obj [("d", .ref 1)]), (1, .date 1234)]

/-- The facade over the object holding the date. -/
def c7Ro : Handle × PEnv :=
  readonly ⟨c7Heap, [], 0, [], 0⟩ (.ref 0) noOpts

/-- Claim C7: every listed date mutator yields the guard through the
wrapper (raising DirectMutationError when invoked), and the deep get
trap does hand out a date view for a date-valued property; but a
non-listed method such as getTime is returned UNBOUND, so invoking it
through the wrapper makes the view proxy the receiver and raises
TypeError, while the direct call on the original date returns its epoch
time — the binding the claim requires is missing in this variant. -/
theorem c7_date_methods_returned_unbound :
    (DATE_MUTATING_METHODS.all (fun m => decide (dateGet m = .guardFn))) = true ∧
    callThroughDateView c7Heap "setTime" =
      some (.error (.directMutation "Cannot modify readonly state.")) ∧
    (gotPid (proxyGet c7Ro.2 c7Ro.1.valueProp "d")).isSome = true ∧
    callThroughDateView c7Heap "getTime" = some (.error .typeErr) ∧
    invokeDateMethod c7Heap "getTime" (.dateObj 1) = some (.ok (.num 1234)) := by
  decide

/-- Heap for the introspection scenario of claim C8. -/
def c8Heap : Heap :=
  [(0, .obj [("count", .prim (.num 5))])]

/-- Claim C8 counterexample: the extensibility query through a facade
answers false while the live underlying container is extensible, so
introspection is not fully faithful. -/
theorem c8_isExtensible_not_passthrough :
    isExtensibleTrap c8Heap 0 = false ∧
    jsIsExtensible c8Heap 0 = true ∧
    isExtensibleTrap c8Heap 0 ≠ jsIsExtensible c8Heap 0 := by
  decide

/-- Heap for the identity-cache scenario of claim C6: the backing
object holds xs, an array whose single element is a container. -/
def c6Heap : Heap :=
  [(0, .obj [("xs", .ref 1)]), (1, .arr [.ref 2]), (2, .obj [("y", .prim (.num 1))])]

/-- The facade over the backing object of the C6 scenario. -/
def c6Ro : Handle × PEnv :=
  readonly ⟨c6Heap, [], 0, [], 0⟩ (.ref 0) noOpts

/-- First read of the xs property: a fresh array-view proxy. -/
def c6Xs : Option (GetResult × PEnv) :=
  proxyGet c6Ro.2 c6Ro.1.valueProp "xs"

/-- Environment after the first xs read. -/
def c6EnvB : PEnv :=
  (c6Xs.map (fun r => r.2)).getD c6Ro.2

/-- The proxy id of the array view obtained for xs. -/
def c6XsPid : Nat :=
  (gotPid c6Xs).getD 99

/-- First read of index 0 through the array view. -/
def c6First : Option (GetResult × PEnv) :=
  proxyGet c6EnvB c6XsPid "0"

/-- Environment after the first index read. -/
def c6EnvC : PEnv :=
  (c6First.map (fun r => r.2)).getD c6EnvB

/-- Second read of index 0 through the same array view. -/
def c6Second : Option (GetResult × PEnv) :=
  proxyGet c6EnvC c6XsPid "0"

/-- Claim C6 counterexample: reading the same array index twice within
one facade tree wraps the same container (address 2) into two DIFFERENT
facades — the array handler calls the factory with its default, brand
new WeakMap on every access, not the shared identity cache — and even
re-reading the xs property itself yields a new array view each time. -/
theorem c6_array_element_identity_counterexample :
    (gotPid c6First).isSome = true ∧
    (gotPid c6Second).isSome = true ∧
    gotPid c6First ≠ gotPid c6Second ∧
    gotPid (proxyGet c6EnvC c6Ro.1.valueProp "xs") ≠ gotPid c6Xs := by
  decide

/-- First binding wins: looking a key up in a table that was just
extended at that key returns the new binding. -/
theorem lookup_cons_self {α β : Type} [BEq α] [LawfulBEq α] (a : α) (b : β)
    (l : List (α × β)) : List.lookup a ((a, b) :: l) = some b := by
  simp [List.lookup]

/-- Claim C6, amended: within one construction pass (one shared
WeakMap), wrapping the same container identity twice through the
factory yields the same proxy and leaves the environment untouched —
the cached facade is returned. The counterexample above shows the claim
fails on the array paths, which bypass the shared cache. -/
theorem c6_shared_cache_identity (env : PEnv) (wm : Nat) (a : Addr)
    (hobj : isObject env.heap (.ref a) = true) :
    createDeepProxy (createDeepProxy env wm (.ref a)).2 wm (.ref a) =
      createDeepProxy env wm (.ref a) := by
  unfold createDeepProxy wmapOf registerProxy
  cases hl : List.lookup a ((List.lookup wm env.wmaps).getD []) with
  | some p0 => simp [hobj, hl]
  | none => simp [hobj, hl, lookup_cons_self]

/-- Environment for the witness of the cache-identity theorem. -/
def c6WEnv : PEnv :=
  ⟨[(0, .obj [])], [], 0, [(0, [])], 1⟩

/-- Witness: the cache-identity theorem applied at a concrete
single-object environment. -/
theorem c6_shared_cache_identity_witness :
    isObject c6WEnv.heap (.ref 0) = true ∧
    createDeepProxy (createDeepProxy c6WEnv 0 (.ref 0)).2 0 (.ref 0) =
      createDeepProxy c6WEnv 0 (.ref 0) :=
  ⟨by decide, c6_shared_cache_identity c6WEnv 0 0 (by decide)⟩

/-- Claim C3: a candidate rejected by the configured validator produces
a ValidationError carrying the configured or default message; with a
handler configured the error is delivered to it and internalSet returns
normally, without one the error is raised to the caller; in both cases
the environment — the backing value included — is exactly what it was. -/
theorem c3_validator_rejection (fuel : Nat) (env : PEnv) (iv : HVal) (p : Nat)
    (validator : Heap → HVal → Bool) (eh : Bool) (msg : Option String) (v : HVal)
    (hrej : validator env.heap v = false) :
    internalSet fuel env ⟨iv, p, ⟨some validator, eh, msg⟩⟩ v =
      some ((if eh then SetOutcome.handled (.validation (msg.getD "Validation failed."))
             else SetOutcome.raised (.validation (msg.getD "Validation failed."))), env) := by
  unfold internalSet
  simp only [hrej]
  cases eh <;> simp

/-- The example validator: the candidate count must stay at most 10. -/
def demoValidator : Heap → HVal → Bool := fun hp v =>
  match getKey hp v "count" with
  | .prim (.num n) => decide (n ≤ 10)
  | _ => false

/-- Environment for the validator-rejection witness: backing count 5 at
address 0, rejected candidate count 15 at address 1. -/
def c3Env : PEnv :=
  ⟨[(0, .obj [("count", .prim (.num 5))]), (1, .obj [("count", .prim (.num 15))])],
   [], 0, [], 0⟩

/-- Witness: the validator-rejection theorem applied with no handler
configured; the error is raised with the default message, the
environment is unchanged, and the backing count is still 5. -/
theorem c3_validator_rejection_witness :
    demoValidator c3Env.heap (.ref 1) = false ∧
    internalSet 10 c3Env ⟨.ref 0, 0, ⟨some demoValidator, false, none⟩⟩ (.ref 1) =
      some (.raised (.validation "Validation failed."), c3Env) ∧
    getKey c3Env.heap (.ref 0) "count" = .prim (.num 5) :=
  ⟨by decide, by
    have h := c3_validator_rejection 10 c3Env (.ref 0) 0 demoValidator false none
      (.ref 1) (by decide)
    simpa using h, by decide⟩

/-- Claim C4: every write-capable operation attempted through a facade
— assignment, deletion, defining a property, changing the prototype,
preventing extensions (and thereby any way of extending the container)
— raises DirectMutationError with the fixed message and leaves the
environment, hence the backing value, unchanged. -/
theorem c4_write_traps_guarded (env : PEnv) (pid : Nat) (op : WriteOp) :
    attemptWrite env pid op =
      (.error (.directMutation "Cannot modify readonly state."), env) := by
  cases op <;> rfl

/-- Claim C8, amended: key enumeration, key existence, property
descriptors and the prototype query through a facade agree exactly with
the live underlying container, but the extensibility query answers
false unconditionally while the live container is extensible. -/
theorem c8_introspection_passthrough (h : Heap) (a : Addr) (nd : HNode) (key : String)
    (hnode : List.lookup a h = some nd)
    (hobj : isObject h (.ref a) = true) :
    ownKeysTrap h a = jsOwnKeys h a ∧
    hasTrap h a key = jsHasKey h a key ∧
    gopdTrap h a key = jsOwnPropValue h a key ∧
    getPrototypeOfTrap h (.ref a) = some (protoOf nd) ∧
    isExtensibleTrap h a = false ∧
    jsIsExtensible h a = true := by
  refine ⟨rfl, rfl, rfl, ?_, rfl, ?_⟩
  · unfold getPrototypeOfTrap nodeAt
    simp [hobj, hnode]
  · unfold jsIsExtensible
    simp [hnode]

/-- Witness: the introspection theorem applied to the concrete
single-object heap of the C8 scenario. -/
theorem c8_introspection_passthrough_witness :
    List.lookup 0 c8Heap = some (.obj [("count", .prim (.num 5))]) ∧
    isObject c8Heap (.ref 0) = true ∧
    (ownKeysTrap c8Heap 0 = jsOwnKeys c8Heap 0 ∧
     hasTrap c8Heap 0 "count" = jsHasKey c8Heap 0 "count" ∧
     gopdTrap c8Heap 0 "count" = jsOwnPropValue c8Heap 0 "count" ∧
     getPrototypeOfTrap c8Heap (.ref 0) = some (protoOf (.obj [("count", .prim (.num 5))])) ∧
     isExtensibleTrap c8Heap 0 = false ∧
     jsIsExtensible c8Heap 0 = true) :=
  ⟨by decide, by decide,
   c8_introspection_passthrough c8Heap 0 (.obj [("count", .prim (.num 5))]) "count"
     (by decide) (by decide)⟩

/-- The facade built by the factory directly over a bare function. -/
def c9Ro : Handle × PEnv :=
  readonly ⟨[(0, .func 7)], [], 0, [], 0⟩ (.ref 0) noOpts

/-- Claim C9 counterexample: invoking the facade the factory builds
over a genuine function raises TypeError, not DirectMutationError —
the proxy target is the non-callable single-field holder, so the call
fails before the apply trap could run. -/
theorem c9_facade_call_raises_typeerror :
    callFacade c9Ro.2 c9Ro.1.valueProp = .error .typeErr ∧
    callFacade c9Ro.2 c9Ro.1.valueProp ≠
      .error (.directMutation "Cannot modify readonly state.") := by
  decide

/-- Claim C9, amended: a facade the factory builds over a genuine
function is not callable (its proxy target is the holder object), so
invoking it raises TypeError and the apply trap never runs; the apply
trap raises the mutation guard only where the handler sits directly on
a callable target; and the only sanctioned invocation path is the get
trap returning a function-valued property bound to its original
receiver. -/
theorem c9_call_through_facade_semantics (env : PEnv) (wm : Nat) (fa oa : Addr)
    (fid : Nat) (fields : List (String × HVal)) (prop : String)
    (hf : List.lookup fa env.heap = some (.func fid))
    (ho : List.lookup oa env.heap = some (.obj fields))
    (hp : fields.lookup prop = some (.ref fa)) :
    callFacade (createDeepProxy env wm (.ref fa)).2 (createDeepProxy env wm (.ref fa)).1 =
      .error .typeErr ∧
    applyTrap env.heap (.ref fa) = .error (.directMutation "Cannot modify readonly state.") ∧
    deepGet env wm oa prop = (.boundFn fid (.ref oa), env) := by
  refine ⟨?_, ?_, ?_⟩
  · unfold createDeepProxy
    simp [isObject, nodeAt, hf, mkHolderProxy, registerProxy, callFacade,
          lookup_cons_self, isCallable]
  · unfold applyTrap
    simp [isCallable, nodeAt, hf]
  · unfold deepGet lookupMember
    simp [ho, getKey, hp, isDateRef, isArrRef, isObject, nodeAt, hf]

/-- Environment for the call-semantics witness: a function at address
0, an object at address 1 whose fn property is that function. -/
def c9WEnv : PEnv :=
  ⟨[(0, .func 7), (1, .obj [("fn", .ref 0)])], [], 0, [], 0⟩

/-- Witness: the call-semantics theorem applied at the concrete
function-and-object environment. -/
theorem c9_call_through_facade_semantics_witness :
    List.lookup 0 c9WEnv.heap = some (.func 7) ∧
    List.lookup 1 c9WEnv.heap = some (.obj [("fn", .ref 0)]) ∧
    (callFacade (createDeepProxy c9WEnv 3 (.ref 0)).2 (createDeepProxy c9WEnv 3 (.ref 0)).1 =
       .error .typeErr ∧
     applyTrap c9WEnv.heap (.ref 0) = .error (.directMutation "Cannot modify readonly state.") ∧
     deepGet c9WEnv 3 1 "fn" = (.boundFn 7 (.ref 1), c9WEnv)) :=
  ⟨by decide, by decide,
   c9_call_through_facade_semantics c9WEnv 3 0 1 7 [("fn", .ref 0)] "fn"
     (by decide) (by decide) (by decide)⟩

/-- For-in enumerates nothing over these primitives. -/
theorem ownEnumKeys_of_nonEnumPrim (h : Heap) (v : HVal)
    (hp : nonEnumPrim v = true) : ownEnumKeys h v = [] := by
  cases v with
  | ref a => simp [nonEnumPrim] at hp
  | prim q =>
    cases q with
    | str s =>
      have hs : s = "" := by simpa [nonEnumPrim] using hp
      subst hs
      have hlen : "".length = 0 := rfl
      simp [ownEnumKeys, hlen]
    | num n => simp [ownEnumKeys]
    | boolean b => simp [ownEnumKeys]
    | null => simp [ownEnumKeys]
    | undefined => simp [ownEnumKeys]

/-- Claim C10, amended: internalSet with a candidate over which for-in
enumerates no keys (a number, boolean, null, undefined, or the empty
string) that passes validation returns normally with a successful
outcome and leaves the heap — the backing value — completely unchanged;
a nonempty string candidate, by contrast, assigns each character at its
index key (the counterexample above). -/
theorem c10_nonenum_primitive_noop (fuel : Nat) (env : PEnv) (hd : Handle) (v : HVal)
    (hfuel : 0 < fuel)
    (hobj : isObject env.heap hd.initialValue = true)
    (hacc : validatorAccepts env hd v = true)
    (hprim : nonEnumPrim v = true) :
    ∃ p' env', internalSet fuel env hd v = some (.ok p', env') ∧ env'.heap = env.heap := by
  obtain ⟨f', rfl⟩ : ∃ f', fuel = f' + 1 := ⟨fuel - 1, by omega⟩
  have hmerge : deepMerge (f' + 1) env.heap hd.initialValue v = some env.heap := by
    unfold deepMerge
    rw [ownEnumKeys_of_nonEnumPrim env.heap v hprim]
    rfl
  obtain ⟨a, ha⟩ : ∃ a, hd.initialValue = HVal.ref a := by
    cases hv : hd.initialValue with
    | prim q => rw [hv] at hobj; simp [isObject, nodeAt] at hobj
    | ref a => exact ⟨a, rfl⟩
  have hrebuild : ∃ p' env',
      mergeAndRebuild (f' + 1) env hd v = some (.ok p', env') ∧ env'.heap = env.heap := by
    unfold mergeAndRebuild
    rw [hmerge]
    refine ⟨_, _, rfl, ?_⟩
    rw [ha]
    unfold createDeepProxy newWeakMap
    rw [ha] at hobj
    simp only [hobj, if_true]
    cases hl : List.lookup a (wmapOf { env with heap := env.heap, wmaps := (env.nextW, []) :: env.wmaps, nextW := env.nextW + 1 } env.nextW) with
    | some p0 => rfl
    | none => simp [registerProxy]
  unfold internalSet
  cases hvd : hd.opts.validator with
  | none => exact hrebuild
  | some f =>
    have hft : f env.heap v = true := by
      have := hacc
      unfold validatorAccepts at this
      rw [hvd] at this
      exact this
    simp only [hft]
    simpa using hrebuild

/-- Witness: the no-op theorem applied with a boolean candidate on the
concrete count-5 handle. -/
theorem c10_nonenum_primitive_noop_witness :
    0 < 10 ∧
    isObject c10Ro.2.heap c10Ro.1.initialValue = true ∧
    validatorAccepts c10Ro.2 c10Ro.1 (.prim (.boolean true)) = true ∧
    nonEnumPrim (.prim (.boolean true)) = true ∧
    (∃ p' env', internalSet 10 c10Ro.2 c10Ro.1 (.prim (.boolean true)) = some (.ok p', env') ∧
      env'.heap = c10Ro.2.heap) :=
  ⟨by decide, by decide, by decide, by decide,
   c10_nonenum_primitive_noop 10 c10Ro.2 c10Ro.1 (.prim (.boolean true))
     (by decide) (by decide) (by decide) (by decide)⟩

end ImmuView
